import Mathlib

/-!
Shallow embedding of the expense-tracker web application's query and
mutation layer (`src/lib/supabase/queries/*`, `src/lib/supabase/mutations/*`,
the dashboard page computation) over explicit table states.

Database tables are modelled as lists of rows; the authenticated user is an
`Option String` (none = no user / auth error); a reported database error is
an explicit boolean flag.  Amounts are rationals; ISO dates are strings
compared lexicographically, exactly as the database compares them.
-/

namespace ExpenseTracker

/-! ### String helpers (JS `includes`, lexicographic comparison) -/

/-- `listStartsWith n h` is true when `n` is an initial segment of `h`. -/
def listStartsWith : List Char → List Char → Bool
  | [], _ => true
  | _ :: _, [] => false
  | a :: as, b :: bs => a == b && listStartsWith as bs

/-- `listHasSub n h` is true when `n` occurs contiguously inside `h`. -/
def listHasSub (n : List Char) : List Char → Bool
  | [] => n.isEmpty
  | c :: t => listStartsWith n (c :: t) || listHasSub n t

/-- JavaScript `hay.includes(needle)`. -/
def strContains (hay needle : String) : Bool :=
  listHasSub needle.data hay.data

/-- Lexicographic comparison on character lists. -/
def charListLe : List Char → List Char → Bool
  | [], _ => true
  | _ :: _, [] => false
  | a :: as, b :: bs => if a < b then true else if b < a then false else charListLe as bs

/-- Lexicographic string comparison, as the database compares ISO date strings. -/
def strLe (a b : String) : Bool :=
  charListLe a.data b.data

/-- JavaScript `s.trim()`: whitespace stripped from both ends. -/
def jsTrim (s : String) : String :=
  ⟨((s.data.dropWhile Char.isWhitespace).reverse.dropWhile Char.isWhitespace).reverse⟩

/-- JavaScript `s.toLowerCase()` (character-wise lowering). -/
def strLower (s : String) : String :=
  ⟨s.data.map Char.toLower⟩

/-- `l.split(c)` on character lists (single-character separator). -/
def splitOnChar (c : Char) : List Char → List (List Char)
  | [] => [[]]
  | x :: xs =>
    if x == c then [] :: splitOnChar c xs
    else
      match splitOnChar c xs with
      | h :: t => (x :: h) :: t
      | [] => [[x]]

/-- `parseInt` on a decimal string, `none` on malformed input. -/
def parseNat (s : String) : Option Nat :=
  if s.data ≠ [] && s.data.all Char.isDigit then
    some (s.data.foldl (fun n c => n * 10 + (c.toNat - 48)) 0)
  else none

/-! ### Month arithmetic (from `getExpensesForMonth`) -/

def isLeapYear (y : Nat) : Bool :=
  (y % 4 == 0 && y % 100 != 0) || y % 400 == 0

/-- Day count of month `m` of year `y`, as `new Date(y, m, 0).getDate()` yields. -/
def daysInMonth (y m : Nat) : Nat :=
  if m == 2 then (if isLeapYear y then 29 else 28)
  else if m == 4 || m == 6 || m == 9 || m == 11 then 30
  else 31

/-- `String(n).padStart(2, "0")`. -/
def padTwo (n : Nat) : String :=
  let s := toString n
  if s.length < 2 then "0" ++ s else s

/-- First and last day strings of a `"YYYY-MM"` month key, as computed in
`getExpensesForMonth` / `getCategoryTotalsForMonth`.  The fallback branch is
unreachable because `splitOn` always yields at least one piece, and month
keys contain a dash. -/
def monthBounds (month : String) : String × String :=
  match (splitOnChar '-' month.data).map List.asString with
  | year :: monthNum :: _ =>
    let lastDay := daysInMonth ((parseNat year).getD 0) ((parseNat monthNum).getD 0)
    (year ++ "-" ++ monthNum ++ "-01", year ++ "-" ++ monthNum ++ "-" ++ padTwo lastDay)
  | _ => (month ++ "-01", month)

/-! ### Data model (tables and result shapes) -/

/-- The `(name, icon, color)` projection of a `categories` row delivered by
the embedded `categories ( name, icon, color )` join. -/
structure CatInfo where
  name : String
  icon : String
  color : String
deriving DecidableEq

/-- A row of the `expenses` table. -/
structure ExpenseRow where
  id : String
  created_at : String
  updated_at : String
  user_id : String
  amount : ℚ
  currency : String
  expense_date : String
  category_id : Option String
  description : Option String
  payment_method : Option String
  receipt_url : Option String
  notes : Option String
deriving DecidableEq

/-- A row of the `categories` table. -/
structure CategoryRow where
  id : String
  created_at : String
  updated_at : String
  name : String
  icon : String
  color : String
  user_id : Option String
  is_default : Bool
  sort_order : Int
deriving DecidableEq

/-- A row of the `budgets` table. -/
structure BudgetRow where
  id : String
  created_at : String
  updated_at : String
  user_id : String
  month : String
  amount : ℚ
deriving DecidableEq

/-- The `CategoryTotal` interface of `getCategoryTotalsForMonth`. -/
structure CategoryTotal where
  category_id : String
  category_name : String
  category_icon : String
  category_color : String
  total : ℚ
deriving DecidableEq

/-- The `TransactionWithCategory` interface. -/
structure TransactionWithCategory where
  id : String
  created_at : String
  updated_at : String
  user_id : String
  amount : ℚ
  currency : String
  expense_date : String
  category_id : Option String
  description : Option String
  payment_method : Option String
  notes : Option String
  category_name : String
  category_icon : String
  category_color : String
deriving DecidableEq

/-- The `ExpenseFilters` interface of `getFilteredExpenses`. -/
structure ExpenseFilters where
  search : Option String := none
  startDate : Option String := none
  endDate : Option String := none
  categoryIds : Option (List String) := none
  paymentMethods : Option (List String) := none
  minAmount : Option ℚ := none
  maxAmount : Option ℚ := none
  page : Option Nat := none
  pageSize : Option Nat := none
deriving DecidableEq

/-- The `PaginatedExpenses` interface of `getFilteredExpenses`. -/
structure PaginatedExpenses where
  data : List TransactionWithCategory
  totalCount : Nat
  page : Nat
  pageSize : Nat
  totalPages : Nat
deriving DecidableEq

/-- The `ActionResult` interface of the mutation modules.  The TS `data?: any`
payload field is not modelled; absent fields are `none`. -/
structure ActionResult where
  success : Option Bool := none
  error : Option String := none
deriving DecidableEq

/-! ### Query functions (`src/lib/supabase/queries`) -/

/-- The row predicate of the month queries: owned by `uid` and dated inside
the month (`eq user_id`, `gte/lte expense_date` against `monthBounds`). -/
def inMonthForUser (uid month : String) (e : ExpenseRow) : Bool :=
  e.user_id == uid
    && strLe (monthBounds month).1 e.expense_date
    && strLe e.expense_date (monthBounds month).2

/-- `order("expense_date", { ascending: false })` : descending date order. -/
def dateGe (a b : ExpenseRow) : Prop :=
  strLe b.expense_date a.expense_date = true

instance : DecidableRel dateGe := fun _ _ =>
  inferInstanceAs (Decidable (_ = true))

/-- Reads a user's expenses in a month: auth check, month-range filter on
`expenses`, descending date order; `[]` on auth or query error. -/
def getExpensesForMonth (auth : Option String) (db : List ExpenseRow)
    (qErr : Bool) (month : String) : List ExpenseRow :=
  match auth with
  | none => []
  | some uid =>
    if qErr then []
    else List.insertionSort dateGe (db.filter (inMonthForUser uid month))

/-- `expenses.reduce((sum, e) => sum + e.amount, 0)` over the month's rows. -/
def getTotalForMonth (auth : Option String) (db : List ExpenseRow)
    (qErr : Bool) (month : String) : ℚ :=
  (getExpensesForMonth auth db qErr month).foldl (fun s e => s + e.amount) 0

/-- The grouping key `expense.category_id || "uncategorized"` (JS truthiness:
both `null` and the empty string fall back). -/
def catKey (e : ExpenseRow) : String :=
  match e.category_id with
  | some s => if s == "" then "uncategorized" else s
  | none => "uncategorized"

/-- The fallback category object `{ name: "Uncategorized", icon: "📝",
color: "#64748b" }`. -/
def uncategorizedInfo : CatInfo :=
  { name := "Uncategorized", icon := "📝", color := "#64748b" }

/-- One step of the JS `Map` grouping: bump the total of the first (unique)
entry with this key, or append a fresh entry, preserving insertion order. -/
def mapUpsert : List CategoryTotal → String → CatInfo → ℚ → List CategoryTotal
  | [], k, c, amt => [⟨k, c.name, c.icon, c.color, amt⟩]
  | ct :: rest, k, c, amt =>
    if ct.category_id == k then { ct with total := ct.total + amt } :: rest
    else ct :: mapUpsert rest k c amt

/-- The `data.forEach` body of `getCategoryTotalsForMonth`:
`expense.categories || {Uncategorized}` then `Map` update.  `joinCat` is the
database's resolution of the embedded `categories(name, icon, color)` join. -/
def groupStep (joinCat : Option String → Option CatInfo)
    (m : List CategoryTotal) (e : ExpenseRow) : List CategoryTotal :=
  mapUpsert m (catKey e) ((joinCat e.category_id).getD uncategorizedInfo) e.amount

/-- The sort comparator `(a, b) => b.total - a.total`: descending totals. -/
def totalGe (a b : CategoryTotal) : Prop :=
  b.total ≤ a.total

instance : DecidableRel totalGe := fun _ _ =>
  inferInstanceAs (Decidable (_ ≤ _))

instance : IsTotal CategoryTotal totalGe :=
  ⟨fun a b => le_total b.total a.total⟩

instance : IsTrans CategoryTotal totalGe :=
  ⟨fun _ _ _ h1 h2 => le_trans h2 h1⟩

/-- Groups a month's expenses by category, sums amounts per group, and sorts
groups by descending total; `[]` on auth or query error. -/
def getCategoryTotalsForMonth (auth : Option String) (db : List ExpenseRow)
    (joinCat : Option String → Option CatInfo) (qErr : Bool) (month : String) :
    List CategoryTotal :=
  match auth with
  | none => []
  | some uid =>
    if qErr then []
    else
      List.insertionSort totalGe
        ((db.filter (inMonthForUser uid month)).foldl (groupStep joinCat) [])

/-- The per-row enrichment `{...expense, category_name: categories?.name ||
"Uncategorized", ...}` (JS `||`: an empty string also falls back). -/
def enrich (joinCat : Option String → Option CatInfo) (e : ExpenseRow) :
    TransactionWithCategory :=
  let c := joinCat e.category_id
  { id := e.id, created_at := e.created_at, updated_at := e.updated_at,
    user_id := e.user_id, amount := e.amount, currency := e.currency,
    expense_date := e.expense_date, category_id := e.category_id,
    description := e.description, payment_method := e.payment_method,
    notes := e.notes,
    category_name :=
      match c with
      | some ci => if ci.name == "" then "Uncategorized" else ci.name
      | none => "Uncategorized",
    category_icon :=
      match c with
      | some ci => if ci.icon == "" then "📝" else ci.icon
      | none => "📝",
    category_color :=
      match c with
      | some ci => if ci.color == "" then "#64748b" else ci.color
      | none => "#64748b" }

/-- Current month's expenses joined with category info, date-descending,
enriched; `[]` on auth or query error.  The current month key (computed in
the source from the clock) is passed in as `currentMonth`. -/
def getCurrentMonthTransactionsWithCategories (auth : Option String)
    (db : List ExpenseRow) (joinCat : Option String → Option CatInfo)
    (qErr : Bool) (currentMonth : String) : List TransactionWithCategory :=
  match auth with
  | none => []
  | some uid =>
    if qErr then []
    else
      (List.insertionSort dateGe (db.filter (inMonthForUser uid currentMonth))).map
        (enrich joinCat)

/-! ### Filtered, paginated expense query (`getFilteredExpenses`) -/

/-- JS `x || d` for optional numbers: `undefined` and `0` both fall back. -/
def orDefaultNat (o : Option Nat) (d : Nat) : Nat :=
  match o with
  | some n => if n == 0 then d else n
  | none => d

/-- JS truthiness of `filters.search && filters.search.trim()`. -/
def searchActive (f : ExpenseFilters) : Bool :=
  match f.search with
  | some s => jsTrim s != ""
  | none => false

/-- The server-side filter chain of `getFilteredExpenses` (applied alike to
the data query and the count query).  JS truthiness: an empty `startDate` /
`endDate` string disables that bound; empty id/method lists disable those
clauses; `minAmount`/`maxAmount` apply whenever present (`!== undefined`).
A SQL `in` clause never matches a `null` column. -/
def matchesFilters (uid : String) (f : ExpenseFilters) (e : ExpenseRow) : Bool :=
  e.user_id == uid
    && (match f.startDate with
        | some d => if d == "" then true else strLe d e.expense_date
        | none => true)
    && (match f.endDate with
        | some d => if d == "" then true else strLe e.expense_date d
        | none => true)
    && (match f.categoryIds with
        | some ids =>
          if ids.length == 0 then true
          else
            match e.category_id with
            | some c => ids.contains c
            | none => false
        | none => true)
    && (match f.paymentMethods with
        | some ms =>
          if ms.length == 0 then true
          else
            match e.payment_method with
            | some p => ms.contains p
            | none => false
        | none => true)
    && (match f.minAmount with
        | some a => decide (a ≤ e.amount)
        | none => true)
    && (match f.maxAmount with
        | some a => decide (e.amount ≤ a)
        | none => true)

/-- The client-side search predicate: description / category name / notes
contains the lowercased search string, case-insensitively. -/
def matchesSearch (searchLower : String) (t : TransactionWithCategory) : Bool :=
  (match t.description with
   | some d => strContains (strLower d) searchLower
   | none => false)
  || strContains (strLower t.category_name) searchLower
  || (match t.notes with
      | some n => strContains (strLower n) searchLower
      | none => false)

/-- `Math.ceil(a / b)` on naturals. -/
def ceilDiv (a b : Nat) : Nat :=
  (a + b - 1) / b

/-- The filtered, paginated expense query.  `dataErr` / `countErr` flag a
reported error of the data query resp. the count query.  The page window is
`range(offset, offset + pageSize - 1)`; when a text search is active the
search predicate is applied to the already-fetched page and `totalCount` is
overwritten with the surviving row count. -/
def getFilteredExpenses (auth : Option String) (db : List ExpenseRow)
    (joinCat : Option String → Option CatInfo) (dataErr countErr : Bool)
    (filters : ExpenseFilters) : PaginatedExpenses :=
  match auth with
  | none =>
    { data := [], totalCount := 0, page := orDefaultNat filters.page 1,
      pageSize := orDefaultNat filters.pageSize 20, totalPages := 0 }
  | some uid =>
    let page := orDefaultNat filters.page 1
    let pageSize := orDefaultNat filters.pageSize 20
    let offset := (page - 1) * pageSize
    if dataErr || countErr then
      { data := [], totalCount := 0, page := page, pageSize := pageSize,
        totalPages := 0 }
    else
      let filtered := db.filter (matchesFilters uid filters)
      let pageRows := ((List.insertionSort dateGe filtered).drop offset).take pageSize
      let results := pageRows.map (enrich joinCat)
      if searchActive filters then
        let searchLower := strLower (filters.search.getD "")
        let results2 := results.filter (matchesSearch searchLower)
        { data := results2, totalCount := results2.length, page := page,
          pageSize := pageSize, totalPages := ceilDiv results2.length pageSize }
      else
        { data := results, totalCount := filtered.length, page := page,
          pageSize := pageSize, totalPages := ceilDiv filtered.length pageSize }

/-! ### Category and budget queries -/

/-- `order("sort_order", { ascending: true })`. -/
def sortOrderLe (a b : CategoryRow) : Prop :=
  a.sort_order ≤ b.sort_order

instance : DecidableRel sortOrderLe := fun _ _ =>
  inferInstanceAs (Decidable (_ ≤ _))

/-- User categories plus default categories, by ascending sort order;
`[]` on auth or query error
(`or("user_id.eq.<uid>,is_default.eq.true")`). -/
def getCategories (auth : Option String) (db : List CategoryRow)
    (qErr : Bool) : List CategoryRow :=
  match auth with
  | none => []
  | some uid =>
    if qErr then []
    else
      List.insertionSort sortOrderLe
        (db.filter (fun c => c.user_id == some uid || c.is_default))

/-- The row predicate of the budget lookups: `eq user_id`, `eq month`. -/
def budgetKeyMatch (uid month : String) (b : BudgetRow) : Bool :=
  b.user_id == uid && b.month == month

/-- The budget for a `(user, month)` pair; `.single()` succeeds only when the
filter matches exactly one row, and any error yields `null`. -/
def getBudgetForMonth (auth : Option String) (db : List BudgetRow)
    (qErr : Bool) (month : String) : Option BudgetRow :=
  match auth with
  | none => none
  | some uid =>
    if qErr then none
    else
      match db.filter (budgetKeyMatch uid month) with
      | [b] => some b
      | _ => none

/-! ### Mutations (`src/lib/supabase/mutations`).  Each returns the new table
state together with the `ActionResult`.  `dbErr` flags a reported database
error on the write; `freshId` / `ts` stand for the database-generated row id
and timestamp of an insert. -/

/-- The insert payload `Omit<TablesInsert<"expenses">, "user_id">`. -/
structure ExpenseInsertData where
  amount : ℚ
  currency : String
  expense_date : String
  category_id : Option String
  description : Option String := none
  payment_method : Option String := none
  notes : Option String := none
deriving DecidableEq

def createExpense (auth : Option String) (db : List ExpenseRow) (dbErr : Bool)
    (freshId ts : String) (ed : ExpenseInsertData) :
    List ExpenseRow × ActionResult :=
  match auth with
  | none => (db, { error := some "Unauthorized" })
  | some uid =>
    if dbErr then (db, { error := some "insert error" })
    else
      (db ++ [{ id := freshId, created_at := ts, updated_at := ts,
                user_id := uid, amount := ed.amount, currency := ed.currency,
                expense_date := ed.expense_date, category_id := ed.category_id,
                description := ed.description,
                payment_method := ed.payment_method, receipt_url := none,
                notes := ed.notes }],
       { success := some true })

/-- `delete().eq("id", expenseId).eq("user_id", user.id)`. -/
def deleteExpense (auth : Option String) (db : List ExpenseRow) (dbErr : Bool)
    (expenseId : String) : List ExpenseRow × ActionResult :=
  match auth with
  | none => (db, { error := some "Unauthorized" })
  | some uid =>
    if dbErr then (db, { error := some "delete error" })
    else
      (db.filter (fun e => !(e.id == expenseId && e.user_id == uid)),
       { success := some true })

/-- The update payload `Partial<Omit<TablesInsert<"expenses">, "user_id">>`:
absent fields leave the column untouched. -/
structure ExpenseUpdate where
  amount : Option ℚ := none
  currency : Option String := none
  expense_date : Option String := none
  category_id : Option (Option String) := none
  description : Option (Option String) := none
  payment_method : Option (Option String) := none
  notes : Option (Option String) := none
deriving DecidableEq

def applyExpenseUpdate (u : ExpenseUpdate) (e : ExpenseRow) : ExpenseRow :=
  { e with
    amount := u.amount.getD e.amount,
    currency := u.currency.getD e.currency,
    expense_date := u.expense_date.getD e.expense_date,
    category_id := u.category_id.getD e.category_id,
    description := u.description.getD e.description,
    payment_method := u.payment_method.getD e.payment_method,
    notes := u.notes.getD e.notes }

/-- `update(data).eq("id", expenseId).eq("user_id", user.id).select().single()`:
the rows matched by both `eq` clauses are updated, and the trailing
`.single()` reports an error unless exactly one row was matched. -/
def updateExpense (auth : Option String) (db : List ExpenseRow) (dbErr : Bool)
    (expenseId : String) (u : ExpenseUpdate) : List ExpenseRow × ActionResult :=
  match auth with
  | none => (db, { error := some "Unauthorized" })
  | some uid =>
    if dbErr then (db, { error := some "update error" })
    else
      let db2 := db.map fun e =>
        if e.id == expenseId && e.user_id == uid then applyExpenseUpdate u e else e
      if (db.filter (fun e => e.id == expenseId && e.user_id == uid)).length == 1 then
        (db2, { success := some true })
      else (db2, { error := some "not a single row" })

/-- `delete().in("id", expenseIds).eq("user_id", user.id)`. -/
def bulkDeleteExpenses (auth : Option String) (db : List ExpenseRow)
    (dbErr : Bool) (expenseIds : List String) : List ExpenseRow × ActionResult :=
  match auth with
  | none => (db, { error := some "Unauthorized" })
  | some uid =>
    if dbErr then (db, { error := some "delete error" })
    else
      (db.filter (fun e => !(expenseIds.contains e.id && e.user_id == uid)),
       { success := some true })

/-- The budget upsert: look up the `(user, month)` row with `.single()`
(which yields data only when exactly one row matches); update it by id when
found, otherwise insert — where an insert collides with the table's
`unique(user_id, month)` constraint whenever any matching row exists. -/
def setBudget (auth : Option String) (db : List BudgetRow) (dbErr : Bool)
    (month : String) (amount : ℚ) (freshId ts : String) :
    List BudgetRow × ActionResult :=
  match auth with
  | none => (db, { error := some "Unauthorized" })
  | some uid =>
    if dbErr then (db, { error := some "Failed to set budget" })
    else
      match db.filter (budgetKeyMatch uid month) with
      | [existing] =>
        (db.map fun b =>
          if b.id == existing.id then { b with amount := amount } else b,
         { success := some true })
      | _ =>
        if db.any (budgetKeyMatch uid month) then
          (db, { error := some "duplicate key value violates unique constraint" })
        else
          (db ++ [{ id := freshId, created_at := ts, updated_at := ts,
                    user_id := uid, month := month, amount := amount }],
           { success := some true })

/-- `delete().eq("user_id", user.id).eq("month", month)`. -/
def deleteBudget (auth : Option String) (db : List BudgetRow) (dbErr : Bool)
    (month : String) : List BudgetRow × ActionResult :=
  match auth with
  | none => (db, { error := some "Unauthorized" })
  | some uid =>
    if dbErr then (db, { error := some "delete error" })
    else
      (db.filter (fun b => !(budgetKeyMatch uid month b)), { success := some true })

/-! ### Dashboard budget-status computation (`DashboardPage`) -/

/-- `budgetAmount > 0 ? (totalExpenses / budgetAmount) * 100 : 0`. -/
def budgetPercentage (budgetAmount totalExpenses : ℚ) : ℚ :=
  if 0 < budgetAmount then totalExpenses / budgetAmount * 100 else 0

/-- `budgetAmount - totalExpenses`. -/
def budgetRemaining (budgetAmount totalExpenses : ℚ) : ℚ :=
  budgetAmount - totalExpenses

/-- `Math.min(budgetPercentage, 100)`, the value handed to the progress bar. -/
def progressBarValue (budgetAmount totalExpenses : ℚ) : ℚ :=
  min (budgetPercentage budgetAmount totalExpenses) 100

/-- ECMAScript `Number.prototype.toFixed(0)` under exact arithmetic: the
integer closest to the value, the larger one on ties. -/
def jsToFixed0 (q : ℚ) : Int :=
  Rat.floor (q + 1 / 2)

/-- The integer rendered by `{budgetPercentage.toFixed(0)}% of ... budget
used`. -/
def displayedPercent (budgetAmount totalExpenses : ℚ) : Int :=
  jsToFixed0 (budgetPercentage budgetAmount totalExpenses)

/-! ### Proof-side measures and concrete sample data -/

/-- The sum of all group totals of an accumulator state. -/
def sumTotals (m : List CategoryTotal) : ℚ :=
  (m.map CategoryTotal.total).sum

/-- The category keys of an accumulator state, in insertion order. -/
def ctKeys (m : List CategoryTotal) : List String :=
  m.map CategoryTotal.category_id

/-- The summed total of the (at most one) accumulator entry with key `k`. -/
def entryTotal (m : List CategoryTotal) (k : String) : ℚ :=
  ((m.filter (fun ct => ct.category_id == k)).map CategoryTotal.total).sum

/-- A join resolution with no category rows. -/
def wJoinNone : Option String → Option CatInfo :=
  fun _ => none

/-- A filter set with every field absent. -/
def wEmptyFilters : ExpenseFilters :=
  {}

/-- A filter set carrying only a text search. -/
def wSearchFilters : ExpenseFilters :=
  { search := some "x" }

/-- A sample expense row of January 2025. -/
def wRow : ExpenseRow :=
  { id := "e1", created_at := "t", updated_at := "t", user_id := "u",
    amount := 5, currency := "USD", expense_date := "2025-01-05",
    category_id := some "food", description := some "Lunch",
    payment_method := none, receipt_url := none, notes := none }

/-- A join resolution carrying the sample category. -/
def wJoin : Option String → Option CatInfo
  | some "food" => some ⟨"Food", "F", "#f00"⟩
  | _ => none

/-- The category group the sample row lands in. -/
def wCT : CategoryTotal :=
  ⟨"food", "Food", "F", "#f00", 5⟩

/-! ### Helper lemmas -/

theorem ratFloor_eq_intFloor (q : ℚ) : Rat.floor q = ⌊q⌋ :=
  rfl

theorem filter_filter_of_imp {α} (p q : α → Bool) (l : List α)
    (h : ∀ a, p a = true → q a = true) :
    (l.filter q).filter p = l.filter p := by
  induction l with
  | nil => rfl
  | cons x xs ih =>
    rcases hp : p x with _ | _
    · rcases hq : q x with _ | _ <;> simp [List.filter_cons, hp, hq, ih]
    · have hq := h x hp
      simp [List.filter_cons, hp, hq, ih]

theorem filter_map_of_inv {α} (g : α → α) (q : α → Bool) (l : List α)
    (h : ∀ a, q (g a) = q a) :
    (l.map g).filter q = (l.filter q).map g := by
  induction l with
  | nil => rfl
  | cons x xs ih =>
    rcases hq : q x with _ | _ <;>
      simp [List.filter_cons, h x, hq, ih]

theorem foldl_add_amount (l : List ExpenseRow) (s : ℚ) :
    l.foldl (fun a e => a + e.amount) s = s + (l.map ExpenseRow.amount).sum := by
  induction l generalizing s with
  | nil => simp
  | cons x xs ih => simp [List.foldl_cons, ih, add_assoc]

theorem sumTotals_mapUpsert (m : List CategoryTotal) (k : String) (c : CatInfo)
    (amt : ℚ) : sumTotals (mapUpsert m k c amt) = sumTotals m + amt := by
  induction m with
  | nil => simp [mapUpsert, sumTotals]
  | cons ct rest ih =>
    by_cases h : ct.category_id = k
    · simp [mapUpsert, h, sumTotals]
      ring
    · simp only [mapUpsert, beq_iff_eq, h, if_false, sumTotals, List.map_cons,
        List.sum_cons] at *
      rw [ih]
      ring

theorem sumTotals_foldl (joinCat : Option String → Option CatInfo)
    (rows : List ExpenseRow) (m : List CategoryTotal) :
    sumTotals (rows.foldl (groupStep joinCat) m)
      = sumTotals m + (rows.map ExpenseRow.amount).sum := by
  induction rows generalizing m with
  | nil => simp
  | cons e rs ih =>
    simp only [List.foldl_cons, List.map_cons, List.sum_cons]
    rw [ih, groupStep, sumTotals_mapUpsert]
    ring

/-- **C3.** For every database state, user, month and join resolution, the sum
of the per-category totals returned by `getCategoryTotalsForMonth` equals the
month's total expense sum returned by `getTotalForMonth` (both are computed
over the same filtered row set). -/
theorem categoryTotals_sum_eq_monthTotal (auth : Option String)
    (db : List ExpenseRow) (joinCat : Option String → Option CatInfo)
    (qErr : Bool) (month : String) :
    ((getCategoryTotalsForMonth auth db joinCat qErr month).map
        CategoryTotal.total).sum
      = getTotalForMonth auth db qErr month := by
  cases auth with
  | none => simp [getCategoryTotalsForMonth, getTotalForMonth, getExpensesForMonth]
  | some uid =>
    rcases hq : qErr with _ | _
    · simp only [getCategoryTotalsForMonth, getTotalForMonth,
        getExpensesForMonth, if_false, Bool.false_eq_true]
      have hperm :=
        (List.perm_insertionSort totalGe
          ((db.filter (inMonthForUser uid month)).foldl (groupStep joinCat) [])).map
          CategoryTotal.total
      rw [hperm.sum_eq]
      have h1 := sumTotals_foldl joinCat (db.filter (inMonthForUser uid month)) []
      simp only [sumTotals, List.map_nil, List.sum_nil, zero_add] at h1
      rw [h1, foldl_add_amount, zero_add]
      exact ((List.perm_insertionSort dateGe
        (db.filter (inMonthForUser uid month))).map ExpenseRow.amount).sum_eq.symm
    · simp [getCategoryTotalsForMonth, getTotalForMonth, getExpensesForMonth]

theorem ctKeys_cons (ct : CategoryTotal) (rest : List CategoryTotal) :
    ctKeys (ct :: rest) = ct.category_id :: ctKeys rest :=
  rfl

theorem ctKeys_mapUpsert (m : List CategoryTotal) (k : String) (c : CatInfo)
    (amt : ℚ) :
    ctKeys (mapUpsert m k c amt)
      = if k ∈ ctKeys m then ctKeys m else ctKeys m ++ [k] := by
  induction m with
  | nil => simp [mapUpsert, ctKeys]
  | cons ct rest ih =>
    by_cases h : ct.category_id = k
    · have hk : k ∈ ctKeys (ct :: rest) := by
        rw [ctKeys_cons]
        exact h ▸ List.mem_cons_self _ _
      rw [if_pos hk]
      simp [mapUpsert, h, ctKeys]
    · have hbeq : (ct.category_id == k) = false := by
        simp [h]
      have hne : ¬ k = ct.category_id := fun he => h he.symm
      have hstep : mapUpsert (ct :: rest) k c amt = ct :: mapUpsert rest k c amt := by
        simp [mapUpsert, hbeq]
      rw [hstep]
      by_cases hm : k ∈ ctKeys rest
      · have houter : k ∈ ctKeys (ct :: rest) := by
          rw [ctKeys_cons]
          exact List.mem_cons_of_mem _ hm
        rw [if_pos houter, ctKeys_cons, ctKeys_cons, ih, if_pos hm]
      · have houter : k ∉ ctKeys (ct :: rest) := by
          rw [ctKeys_cons]
          intro hk
          rcases List.mem_cons.mp hk with he | hk'
          · exact hne he
          · exact hm hk'
        rw [if_neg houter, ctKeys_cons, ctKeys_cons, ih, if_neg hm]
        rfl

theorem mem_ctKeys_mapUpsert (m : List CategoryTotal) (k k' : String)
    (c : CatInfo) (amt : ℚ) :
    k' ∈ ctKeys (mapUpsert m k c amt) ↔ k' ∈ ctKeys m ∨ k' = k := by
  rw [ctKeys_mapUpsert]
  by_cases hm : k ∈ ctKeys m
  · simp only [hm, if_true]
    constructor
    · exact Or.inl
    · rintro (h | rfl)
      · exact h
      · exact hm
  · simp [hm]

theorem nodup_ctKeys_mapUpsert {m : List CategoryTotal} (k : String)
    (c : CatInfo) (amt : ℚ) (h : (ctKeys m).Nodup) :
    (ctKeys (mapUpsert m k c amt)).Nodup := by
  rw [ctKeys_mapUpsert]
  by_cases hm : k ∈ ctKeys m
  · simpa [hm] using h
  · simp [hm, List.nodup_append, h]

theorem nodup_ctKeys_foldl (joinCat : Option String → Option CatInfo)
    (rows : List ExpenseRow) (m : List CategoryTotal)
    (h : (ctKeys m).Nodup) :
    (ctKeys (rows.foldl (groupStep joinCat) m)).Nodup := by
  induction rows generalizing m with
  | nil => exact h
  | cons e rs ih =>
    exact ih _ (nodup_ctKeys_mapUpsert _ _ _ h)

theorem mem_ctKeys_foldl (joinCat : Option String → Option CatInfo)
    (rows : List ExpenseRow) (m : List CategoryTotal) (k : String) :
    k ∈ ctKeys (rows.foldl (groupStep joinCat) m)
      ↔ k ∈ ctKeys m ∨ k ∈ rows.map catKey := by
  induction rows generalizing m with
  | nil => simp
  | cons e rs ih =>
    simp only [List.foldl_cons, List.map_cons, List.mem_cons]
    rw [ih, groupStep, mem_ctKeys_mapUpsert]
    tauto

theorem entryTotal_cons (ct : CategoryTotal) (rest : List CategoryTotal)
    (k : String) :
    entryTotal (ct :: rest) k
      = (if ct.category_id = k then ct.total else 0) + entryTotal rest k := by
  by_cases h : ct.category_id = k <;>
    simp [entryTotal, List.filter_cons, h]

theorem entryTotal_mapUpsert (m : List CategoryTotal) (k : String) (c : CatInfo)
    (amt : ℚ) (k' : String) :
    entryTotal (mapUpsert m k c amt) k'
      = entryTotal m k' + (if k = k' then amt else 0) := by
  induction m with
  | nil =>
    by_cases h : k = k' <;> simp [mapUpsert, entryTotal, h]
  | cons ct rest ih =>
    by_cases h1 : ct.category_id = k
    · have hstep : mapUpsert (ct :: rest) k c amt
          = { ct with total := ct.total + amt } :: rest := by
        simp [mapUpsert, h1]
      rw [hstep, entryTotal_cons, entryTotal_cons]
      by_cases h2 : ct.category_id = k'
      · have hk : k = k' := h1.symm.trans h2
        simp only [h2, if_true, hk]
        ring
      · have hk : ¬ k = k' := fun he => h2 (h1.trans he)
        simp only [h2, if_false, hk]
        ring
    · have hbeq : (ct.category_id == k) = false := by
        simp [h1]
      have hstep : mapUpsert (ct :: rest) k c amt = ct :: mapUpsert rest k c amt := by
        simp [mapUpsert, hbeq]
      rw [hstep, entryTotal_cons, entryTotal_cons, ih]
      ring

theorem entryTotal_foldl (joinCat : Option String → Option CatInfo)
    (rows : List ExpenseRow) (m : List CategoryTotal) (k : String) :
    entryTotal (rows.foldl (groupStep joinCat) m) k
      = entryTotal m k
        + ((rows.filter (fun e => catKey e == k)).map ExpenseRow.amount).sum := by
  induction rows generalizing m with
  | nil => simp
  | cons e rs ih =>
    simp only [List.foldl_cons, List.filter_cons]
    rw [ih, groupStep, entryTotal_mapUpsert]
    by_cases h : catKey e = k <;> simp [h] <;> ring

theorem total_eq_entryTotal {m : List CategoryTotal}
    (h : (ctKeys m).Nodup) {ct : CategoryTotal} (hm : ct ∈ m) :
    ct.total = entryTotal m ct.category_id := by
  induction m with
  | nil => cases hm
  | cons ct0 rest ih =>
    have hn := List.nodup_cons.mp h
    rcases List.mem_cons.mp hm with rfl | hm'
    · have hrest : rest.filter (fun x => x.category_id == ct.category_id) = [] := by
        rw [List.filter_eq_nil_iff]
        intro x hx
        simp only [beq_iff_eq]
        intro he
        exact hn.1 (he ▸ List.mem_map_of_mem CategoryTotal.category_id hx)
      simp [entryTotal, List.filter_cons, hrest]
    · have hne : ¬ ct0.category_id = ct.category_id := by
        intro he
        exact hn.1 (he ▸ List.mem_map_of_mem CategoryTotal.category_id hm')
      simp only [entryTotal, List.filter_cons, beq_iff_eq, hne, if_false]
      exact ih hn.2 hm'

/-- **C4.** On the success path, `getCategoryTotalsForMonth` returns one group
per distinct grouping key (missing category references all map to the
`"uncategorized"` pseudo-key), each group's total is the sum of the amounts of
the month's expenses with that key, and the groups are sorted by descending
total. -/
theorem categoryTotals_groups (uid month : String) (db : List ExpenseRow)
    (joinCat : Option String → Option CatInfo) :
    ((getCategoryTotalsForMonth (some uid) db joinCat false month).map
        CategoryTotal.category_id).Nodup
    ∧ (∀ k : String,
        k ∈ (getCategoryTotalsForMonth (some uid) db joinCat false month).map
            CategoryTotal.category_id
          ↔ k ∈ (db.filter (inMonthForUser uid month)).map catKey)
    ∧ (∀ ct ∈ getCategoryTotalsForMonth (some uid) db joinCat false month,
        ct.total
          = (((db.filter (inMonthForUser uid month)).filter
              (fun e => catKey e == ct.category_id)).map ExpenseRow.amount).sum)
    ∧ (getCategoryTotalsForMonth (some uid) db joinCat false month).Pairwise
        (fun a b => b.total ≤ a.total) := by
  have hdef : getCategoryTotalsForMonth (some uid) db joinCat false month
      = List.insertionSort totalGe
          ((db.filter (inMonthForUser uid month)).foldl (groupStep joinCat) []) :=
    rfl
  set G := (db.filter (inMonthForUser uid month)).foldl (groupStep joinCat) []
    with hG
  have hperm : List.Perm (List.insertionSort totalGe G) G :=
    List.perm_insertionSort totalGe G
  have hkeysperm :
      List.Perm ((List.insertionSort totalGe G).map CategoryTotal.category_id)
        (G.map CategoryTotal.category_id) := hperm.map _
  have hnodupG : (ctKeys G).Nodup := by
    apply nodup_ctKeys_foldl
    simp [ctKeys]
  refine ⟨?_, ?_, ?_, ?_⟩
  · rw [hdef]
    exact hkeysperm.nodup_iff.mpr hnodupG
  · intro k
    rw [hdef, hkeysperm.mem_iff]
    have hmem := mem_ctKeys_foldl joinCat (db.filter (inMonthForUser uid month)) [] k
    rw [← hG] at hmem
    simpa [ctKeys] using hmem
  · intro ct hct
    rw [hdef] at hct
    have hctG : ct ∈ G := hperm.subset hct
    have h1 := total_eq_entryTotal hnodupG hctG
    have h2 := entryTotal_foldl joinCat (db.filter (inMonthForUser uid month)) []
      ct.category_id
    rw [← hG] at h2
    simp only [entryTotal, List.filter_nil, List.map_nil, List.sum_nil,
      zero_add] at h1 h2
    exact h1.trans h2
  · rw [hdef]
    exact List.sorted_insertionSort totalGe G

/-! ### Pagination arithmetic -/

theorem ceilDiv_zero_left (p : Nat) : ceilDiv 0 p = 0 := by
  cases p with
  | zero => rfl
  | succ n =>
    show (0 + (n + 1) - 1) / (n + 1) = 0
    rw [Nat.zero_add, Nat.succ_sub_one]
    exact Nat.div_eq_of_lt (Nat.lt_succ_self n)

theorem ceilDiv_le_one {t p : Nat} (h : t ≤ p) : ceilDiv t p ≤ 1 := by
  cases p with
  | zero =>
    have ht : t = 0 := Nat.le_zero.mp h
    subst ht
    decide
  | succ n =>
    have hlt : t + (n + 1) - 1 < 2 * (n + 1) := by omega
    have hdiv : (t + (n + 1) - 1) / (n + 1) < 2 :=
      (Nat.div_lt_iff_lt_mul (Nat.succ_pos n)).mpr (by omega)
    exact Nat.lt_succ_iff.mp hdiv

/-- **C1.** With an authenticated user and no active text search, the
returned page never exceeds the (requested-or-default) page size and
`totalPages = ceil(totalCount / pageSize)` — on error paths included. -/
theorem filteredExpenses_page_bound (uid : String) (db : List ExpenseRow)
    (joinCat : Option String → Option CatInfo) (dataErr countErr : Bool)
    (filters : ExpenseFilters) (hs : searchActive filters = false) :
    (getFilteredExpenses (some uid) db joinCat dataErr countErr filters).data.length
        ≤ (getFilteredExpenses (some uid) db joinCat dataErr countErr filters).pageSize
    ∧ (getFilteredExpenses (some uid) db joinCat dataErr countErr filters).totalPages
        = ceilDiv
            (getFilteredExpenses (some uid) db joinCat dataErr countErr filters).totalCount
            (getFilteredExpenses (some uid) db joinCat dataErr countErr filters).pageSize := by
  unfold getFilteredExpenses
  rcases he : (dataErr || countErr) with _ | _
  · simp only [he, Bool.false_eq_true, if_false, hs]
    refine ⟨?_, ?_⟩
    · rw [List.length_map, List.length_take]
      exact min_le_left _ _
    · trivial
  · simp only [he, if_true]
    refine ⟨Nat.zero_le _, ?_⟩
    rw [ceilDiv_zero_left]

/-- **C2.** With an active text search, the returned data is exactly the
case-insensitive description / category-name / notes match filter applied to
the rows in positions `[(page-1)*pageSize, page*pageSize)` of the
server-filtered, date-descending result. -/
theorem search_applied_after_pagination (uid : String) (db : List ExpenseRow)
    (joinCat : Option String → Option CatInfo) (filters : ExpenseFilters)
    (hs : searchActive filters = true) :
    (getFilteredExpenses (some uid) db joinCat false false filters).data
      = ((((List.insertionSort dateGe (db.filter (matchesFilters uid filters))).drop
            ((orDefaultNat filters.page 1 - 1) * orDefaultNat filters.pageSize 20)).take
            (orDefaultNat filters.pageSize 20)).map (enrich joinCat)).filter
          (fun t =>
            (match t.description with
             | some d => strContains (strLower d) (strLower (filters.search.getD ""))
             | none => false)
            || strContains (strLower t.category_name)
                (strLower (filters.search.getD ""))
            || (match t.notes with
                | some n => strContains (strLower n) (strLower (filters.search.getD ""))
                | none => false)) := by
  unfold getFilteredExpenses
  simp only [Bool.or_self, Bool.false_eq_true, if_false, hs, if_true]
  rfl

/-- **C9.** With an active text search, `totalCount` is recomputed from the
single fetched page: it equals the returned row count, never exceeds the page
size, and `totalPages` is at most 1 regardless of how many matches exist in
the full filtered data set. -/
theorem search_totalCount_capped (uid : String) (db : List ExpenseRow)
    (joinCat : Option String → Option CatInfo) (filters : ExpenseFilters)
    (hs : searchActive filters = true) :
    (getFilteredExpenses (some uid) db joinCat false false filters).totalCount
        = (getFilteredExpenses (some uid) db joinCat false false filters).data.length
    ∧ (getFilteredExpenses (some uid) db joinCat false false filters).totalCount
        ≤ (getFilteredExpenses (some uid) db joinCat false false filters).pageSize
    ∧ (getFilteredExpenses (some uid) db joinCat false false filters).totalPages ≤ 1 := by
  unfold getFilteredExpenses
  simp only [Bool.or_self, Bool.false_eq_true, if_false, hs, if_true]
  have hlen :
      (((((List.insertionSort dateGe (db.filter (matchesFilters uid filters))).drop
            ((orDefaultNat filters.page 1 - 1) * orDefaultNat filters.pageSize 20)).take
            (orDefaultNat filters.pageSize 20)).map (enrich joinCat)).filter
          (matchesSearch (strLower (filters.search.getD "")))).length
        ≤ orDefaultNat filters.pageSize 20 := by
    calc _ ≤ ((((List.insertionSort dateGe (db.filter (matchesFilters uid filters))).drop
            ((orDefaultNat filters.page 1 - 1) * orDefaultNat filters.pageSize 20)).take
            (orDefaultNat filters.pageSize 20)).map (enrich joinCat)).length :=
          List.length_filter_le _ _
    _ ≤ orDefaultNat filters.pageSize 20 := by
          rw [List.length_map, List.length_take]
          exact min_le_left _ _
  exact ⟨by trivial, hlen, ceilDiv_le_one hlen⟩

/-- **C10.** Every query function degrades to an empty result instead of
failing: with no authenticated user, or with a reported error from the
underlying query, the list queries return `[]`, `getBudgetForMonth` returns
`null`, and `getFilteredExpenses` returns an empty page with `totalCount = 0`
and `totalPages = 0`.  (All embedded functions are total functions: none
throws.) -/
theorem queries_degrade_to_empty (uid month : String) (db : List ExpenseRow)
    (cdb : List CategoryRow) (bdb : List BudgetRow)
    (joinCat : Option String → Option CatInfo) (filters : ExpenseFilters)
    (qErr dErr cErr : Bool) :
    getExpensesForMonth none db qErr month = []
    ∧ getExpensesForMonth (some uid) db true month = []
    ∧ getCategoryTotalsForMonth none db joinCat qErr month = []
    ∧ getCategoryTotalsForMonth (some uid) db joinCat true month = []
    ∧ getCurrentMonthTransactionsWithCategories none db joinCat qErr month = []
    ∧ getCurrentMonthTransactionsWithCategories (some uid) db joinCat true month = []
    ∧ getCategories none cdb qErr = []
    ∧ getCategories (some uid) cdb true = []
    ∧ getBudgetForMonth none bdb qErr month = none
    ∧ getBudgetForMonth (some uid) bdb true month = none
    ∧ (getFilteredExpenses none db joinCat dErr cErr filters).data = []
    ∧ (getFilteredExpenses none db joinCat dErr cErr filters).totalCount = 0
    ∧ (getFilteredExpenses none db joinCat dErr cErr filters).totalPages = 0
    ∧ (getFilteredExpenses (some uid) db joinCat true cErr filters).data = []
    ∧ (getFilteredExpenses (some uid) db joinCat true cErr filters).totalCount = 0
    ∧ (getFilteredExpenses (some uid) db joinCat true cErr filters).totalPages = 0
    ∧ (getFilteredExpenses (some uid) db joinCat dErr true filters).data = []
    ∧ (getFilteredExpenses (some uid) db joinCat dErr true filters).totalCount = 0
    ∧ (getFilteredExpenses (some uid) db joinCat dErr true filters).totalPages = 0 := by
  refine ⟨rfl, rfl, rfl, rfl, rfl, rfl, rfl, rfl, rfl, rfl, rfl, rfl, rfl,
    rfl, rfl, rfl, ?_, ?_, ?_⟩ <;>
    · cases dErr <;> rfl

/-- **C7.** With no authenticated user, every mutation function returns the
generic `{ error: "Unauthorized" }` result and leaves its table unchanged. -/
theorem mutations_unauthorized (db : List ExpenseRow) (bdb : List BudgetRow)
    (dbErr : Bool) (freshId ts expenseId month : String) (amount : ℚ)
    (ed : ExpenseInsertData) (u : ExpenseUpdate) (ids : List String) :
    createExpense none db dbErr freshId ts ed = (db, { error := some "Unauthorized" })
    ∧ deleteExpense none db dbErr expenseId = (db, { error := some "Unauthorized" })
    ∧ updateExpense none db dbErr expenseId u = (db, { error := some "Unauthorized" })
    ∧ bulkDeleteExpenses none db dbErr ids = (db, { error := some "Unauthorized" })
    ∧ setBudget none bdb dbErr month amount freshId ts
        = (bdb, { error := some "Unauthorized" })
    ∧ deleteBudget none bdb dbErr month = (bdb, { error := some "Unauthorized" }) :=
  ⟨rfl, rfl, rfl, rfl, rfl, rfl⟩

/-- **C5 counterexample.** With a $100 budget and a $134.50 month total the
text next to the progress bar does not display 134.5%: `toFixed(0)` renders
the integer 135, and 135 ≠ 134.5. -/
theorem displayed_percent_not_unclamped_value :
    displayedPercent 100 (269/2) = 135 ∧ ((135 : ℚ) ≠ 269 / 2) := by
  constructor
  · have h1 : budgetPercentage 100 (269/2) = 269/2 := by
      rw [budgetPercentage, if_pos (by norm_num)]
      norm_num
    rw [displayedPercent, jsToFixed0, h1, ratFloor_eq_intFloor]
    have h2 : (269/2 + 1/2 : ℚ) = 135 := by norm_num
    rw [h2]
    simp
  · norm_num

/-- **C5 (amended).** For budget `B > 0` and month total `T` the dashboard
computes `percentage = (T / B) × 100` and `remaining = B − T` (negative
remaining displayed as-is), hands `min(percentage, 100)` to the progress bar,
and renders as text the unclamped percentage rounded to the nearest integer
(`toFixed(0)`, half-up).  For T = 134.50 and B = 100: remaining = −34.50,
unclamped percentage 134.5, rendered text percentage 135%. -/
theorem budget_status_computation (B T : ℚ) (hB : 0 < B) :
    budgetPercentage B T = T / B * 100
    ∧ budgetRemaining B T = B - T
    ∧ progressBarValue B T = min (T / B * 100) 100
    ∧ displayedPercent B T = ⌊T / B * 100 + 1 / 2⌋
    ∧ budgetRemaining 100 (269/2) = -(69/2)
    ∧ budgetPercentage 100 (269/2) = 269/2
    ∧ displayedPercent 100 (269/2) = 135 := by
  have hperc : budgetPercentage B T = T / B * 100 := by
    rw [budgetPercentage, if_pos hB]
  have hperc100 : budgetPercentage 100 (269/2) = 269/2 := by
    rw [budgetPercentage, if_pos (by norm_num)]
    norm_num
  refine ⟨hperc, rfl, ?_, ?_, by norm_num [budgetRemaining], hperc100, ?_⟩
  · rw [progressBarValue, hperc]
  · rw [displayedPercent, jsToFixed0, hperc, ratFloor_eq_intFloor]
  · rw [displayedPercent, jsToFixed0, hperc100, ratFloor_eq_intFloor]
    have h2 : (269/2 + 1/2 : ℚ) = 135 := by norm_num
    rw [h2]
    simp

/-- Witness for the amended C5 theorem at `B = 100`, `T = 134.50`. -/
theorem budget_status_computation_witness :
    (0 : ℚ) < 100 ∧ budgetRemaining 100 (269/2) = -(69/2) :=
  ⟨by norm_num, (budget_status_computation 100 (269/2) (by norm_num)).2.2.2.2.1⟩

/-- Every row delivered by `getFilteredExpenses` is the enrichment of a
database row that passed the server-side filter chain. -/
theorem mem_filteredExpenses_data {uid : String} {db : List ExpenseRow}
    {joinCat : Option String → Option CatInfo} {dErr cErr : Bool}
    {filters : ExpenseFilters} {t : TransactionWithCategory}
    (ht : t ∈ (getFilteredExpenses (some uid) db joinCat dErr cErr filters).data) :
    ∃ e ∈ db.filter (matchesFilters uid filters), t = enrich joinCat e := by
  unfold getFilteredExpenses at ht
  rcases he : (dErr || cErr) with _ | _
  · rw [he] at ht
    simp only [Bool.false_eq_true, if_false] at ht
    rcases hsa : searchActive filters with _ | _
    · rw [hsa] at ht
      simp only [Bool.false_eq_true, if_false] at ht
      rcases List.mem_map.mp ht with ⟨e, he1, he2⟩
      refine ⟨e, ?_, he2.symm⟩
      have hsort : e ∈ List.insertionSort dateGe (db.filter (matchesFilters uid filters)) :=
        (List.drop_sublist _ _).subset ((List.take_sublist _ _).subset he1)
      rw [List.mem_insertionSort] at hsort
      exact hsort
    · rw [hsa] at ht
      simp only [if_true] at ht
      have ht' := (List.mem_filter.mp ht).1
      rcases List.mem_map.mp ht' with ⟨e, he1, he2⟩
      refine ⟨e, ?_, he2.symm⟩
      have hsort : e ∈ List.insertionSort dateGe (db.filter (matchesFilters uid filters)) :=
        (List.drop_sublist _ _).subset ((List.take_sublist _ _).subset he1)
      rw [List.mem_insertionSort] at hsort
      exact hsort
  · rw [he] at ht
    simp at ht

/-- **C8.** Ownership isolation: the query functions return only rows owned
by the authenticated user (plus, for categories, the default categories), and
the delete/update mutations leave every row owned by any other user
untouched, whatever ids they are given. -/
theorem ownership_isolation (uid month bmonth expenseId : String)
    (db : List ExpenseRow) (cdb : List CategoryRow) (bdb : List BudgetRow)
    (joinCat : Option String → Option CatInfo) (filters : ExpenseFilters)
    (qErr dErr cErr dbErr : Bool) (u : ExpenseUpdate) (ids : List String) :
    (getExpensesForMonth (some uid) db qErr month).all
        (fun e => e.user_id == uid) = true
    ∧ ((getFilteredExpenses (some uid) db joinCat dErr cErr filters).data).all
        (fun t => t.user_id == uid) = true
    ∧ (getCategories (some uid) cdb qErr).all
        (fun c => c.is_default || c.user_id == some uid) = true
    ∧ (getBudgetForMonth (some uid) bdb qErr bmonth).all
        (fun b => b.user_id == uid) = true
    ∧ (deleteExpense (some uid) db dbErr expenseId).1.filter
          (fun e => !(e.user_id == uid))
        = db.filter (fun e => !(e.user_id == uid))
    ∧ (updateExpense (some uid) db dbErr expenseId u).1.filter
          (fun e => !(e.user_id == uid))
        = db.filter (fun e => !(e.user_id == uid))
    ∧ (bulkDeleteExpenses (some uid) db dbErr ids).1.filter
          (fun e => !(e.user_id == uid))
        = db.filter (fun e => !(e.user_id == uid))
    ∧ (deleteBudget (some uid) bdb dbErr bmonth).1.filter
          (fun b => !(b.user_id == uid))
        = bdb.filter (fun b => !(b.user_id == uid)) := by
  refine ⟨?_, ?_, ?_, ?_, ?_, ?_, ?_, ?_⟩
  · rw [List.all_eq_true]
    intro e he
    unfold getExpensesForMonth at he
    rcases hq : qErr with _ | _
    · rw [hq] at he
      simp only [Bool.false_eq_true, if_false] at he
      rw [List.mem_insertionSort] at he
      have hp := (List.mem_filter.mp he).2
      simp only [inMonthForUser, Bool.and_eq_true] at hp
      exact hp.1.1
    · rw [hq] at he
      simp at he
  · rw [List.all_eq_true]
    intro t ht
    rcases mem_filteredExpenses_data ht with ⟨e, hef, hte⟩
    have hp := (List.mem_filter.mp hef).2
    simp only [matchesFilters, Bool.and_eq_true] at hp
    have huser : (e.user_id == uid) = true := hp.1.1.1.1.1.1
    rw [hte]
    exact huser
  · rw [List.all_eq_true]
    intro c hc
    unfold getCategories at hc
    rcases hq : qErr with _ | _
    · rw [hq] at hc
      simp only [Bool.false_eq_true, if_false] at hc
      rw [List.mem_insertionSort] at hc
      have hp := (List.mem_filter.mp hc).2
      rw [Bool.or_comm]
      exact hp
    · rw [hq] at hc
      simp at hc
  · unfold getBudgetForMonth
    rcases hq : qErr with _ | _
    · simp only [Bool.false_eq_true, if_false]
      rcases hm : bdb.filter (budgetKeyMatch uid bmonth) with _ | ⟨b, rest⟩
      · rfl
      · rcases rest with _ | ⟨c, rest2⟩
        · have hb : b ∈ bdb.filter (budgetKeyMatch uid bmonth) := by
            rw [hm]
            exact List.mem_cons_self _ _
          have hp := (List.mem_filter.mp hb).2
          simp only [budgetKeyMatch, Bool.and_eq_true] at hp
          simpa [Option.all] using hp.1
        · rfl
    · rfl
  · unfold deleteExpense
    rcases hde : dbErr with _ | _
    · simp only [Bool.false_eq_true, if_false]
      exact filter_filter_of_imp _ _ db fun e hp => by
        rw [Bool.not_eq_true'] at hp
        simp [hp]
    · rfl
  · unfold updateExpense
    rcases hde : dbErr with _ | _
    · simp only [Bool.false_eq_true, if_false]
      rw [apply_ite Prod.fst]
      simp only [ite_self]
      have hmap := filter_map_of_inv
        (fun e => if e.id == expenseId && e.user_id == uid then applyExpenseUpdate u e else e)
        (fun e => !(e.user_id == uid)) db fun e => by
          by_cases hc : (e.id == expenseId && e.user_id == uid) = true
          · simp only [hc, if_true]
            rfl
          · simp only [hc, if_false]
            rw [Bool.not_eq_true] at hc
            simp [hc]
      rw [hmap]
      have hid : ∀ e ∈ db.filter (fun e => !(e.user_id == uid)),
          (if e.id == expenseId && e.user_id == uid then applyExpenseUpdate u e else e) = e := by
        intro e he
        have hp := (List.mem_filter.mp he).2
        rw [Bool.not_eq_true'] at hp
        simp [hp]
      rw [List.map_congr_left hid]
      simp
    · rfl
  · unfold bulkDeleteExpenses
    rcases hde : dbErr with _ | _
    · simp only [Bool.false_eq_true, if_false]
      exact filter_filter_of_imp _ _ db fun e hp => by
        rw [Bool.not_eq_true'] at hp
        simp [hp]
    · rfl
  · unfold deleteBudget
    rcases hde : dbErr with _ | _
    · simp only [Bool.false_eq_true, if_false]
      exact filter_filter_of_imp _ _ bdb fun b hp => by
        rw [Bool.not_eq_true'] at hp
        simp [budgetKeyMatch, hp]
    · rfl

/-- Updating amounts by id commutes with the `(user, month)` key filter. -/
theorem budget_filter_map_amount (l : List BudgetRow) (i : String) (amt : ℚ)
    (uid month : String) :
    (l.map (fun b => if b.id == i then { b with amount := amt } else b)).filter
        (budgetKeyMatch uid month)
      = (l.filter (budgetKeyMatch uid month)).map
          (fun b => if b.id == i then { b with amount := amt } else b) :=
  filter_map_of_inv _ _ l fun b => by
    by_cases hc : (b.id == i) = true <;> simp [hc, budgetKeyMatch]

/-- A `setBudget` call that finds no `(user, month)` row inserts a fresh one
and succeeds. -/
theorem setBudget_of_filter_nil {uid month : String} {db : List BudgetRow}
    (h : db.filter (budgetKeyMatch uid month) = []) (amount : ℚ)
    (freshId ts : String) :
    (setBudget (some uid) db false month amount freshId ts).1
        = db ++ [{ id := freshId, created_at := ts, updated_at := ts,
                   user_id := uid, month := month, amount := amount }]
    ∧ (setBudget (some uid) db false month amount freshId ts).2
        = { success := some true } := by
  have hany : db.any (budgetKeyMatch uid month) = false := by
    rw [List.any_eq_false]
    intro b hb
    have := List.filter_eq_nil_iff.mp h b hb
    simpa using this
  constructor <;> simp [setBudget, h, hany]

/-- A `setBudget` call that finds exactly one `(user, month)` row updates its
amount in place and succeeds. -/
theorem setBudget_of_filter_single {uid month : String} {db : List BudgetRow}
    {b : BudgetRow} (h : db.filter (budgetKeyMatch uid month) = [b])
    (amount : ℚ) (freshId ts : String) :
    (setBudget (some uid) db false month amount freshId ts).1.filter
        (budgetKeyMatch uid month) = [{ b with amount := amount }]
    ∧ (setBudget (some uid) db false month amount freshId ts).2
        = { success := some true } := by
  have hstate : (setBudget (some uid) db false month amount freshId ts).1
      = db.map (fun x => if x.id == b.id then { x with amount := amount } else x) := by
    simp [setBudget, h]
  refine ⟨?_, by simp [setBudget, h]⟩
  rw [hstate, budget_filter_map_amount, h]
  simp

/-- **C6.** Starting from a table satisfying the `unique(user_id, month)`
constraint, calling `setBudget` twice with the same month and amount leaves
exactly one budget row for that `(user, month)` pair carrying that amount;
both calls succeed (insert-then-update or update-then-update), and the second
call updates the very row left by the first. -/
theorem setBudget_twice_one_row (uid month : String) (amount : ℚ)
    (db : List BudgetRow) (id1 id2 ts1 ts2 : String)
    (hInv : (db.filter (budgetKeyMatch uid month)).length ≤ 1) :
    ((setBudget (some uid) (setBudget (some uid) db false month amount id1 ts1).1
        false month amount id2 ts2).1.filter (budgetKeyMatch uid month)).map
        BudgetRow.amount = [amount]
    ∧ (setBudget (some uid) db false month amount id1 ts1).2
        = { success := some true }
    ∧ (setBudget (some uid) (setBudget (some uid) db false month amount id1 ts1).1
        false month amount id2 ts2).2 = { success := some true }
    ∧ ((setBudget (some uid) (setBudget (some uid) db false month amount id1 ts1).1
        false month amount id2 ts2).1.filter (budgetKeyMatch uid month)).map
        BudgetRow.id
      = ((setBudget (some uid) db false month amount id1 ts1).1.filter
          (budgetKeyMatch uid month)).map BudgetRow.id := by
  rcases hm : db.filter (budgetKeyMatch uid month) with _ | ⟨b, rest⟩
  · obtain ⟨h1s, h1r⟩ := setBudget_of_filter_nil hm amount id1 ts1
    have hfilter1 : (setBudget (some uid) db false month amount id1 ts1).1.filter
        (budgetKeyMatch uid month)
          = [{ id := id1, created_at := ts1, updated_at := ts1,
               user_id := uid, month := month, amount := amount }] := by
      rw [h1s, List.filter_append, hm]
      simp [budgetKeyMatch]
    obtain ⟨h2f, h2r⟩ := setBudget_of_filter_single hfilter1 amount id2 ts2
    refine ⟨?_, h1r, h2r, ?_⟩
    · simp [h2f]
    · simp [h2f, hfilter1]
  · rcases rest with _ | ⟨c, rest2⟩
    · obtain ⟨h1f, h1r⟩ := setBudget_of_filter_single hm amount id1 ts1
      obtain ⟨h2f, h2r⟩ := setBudget_of_filter_single h1f amount id2 ts2
      refine ⟨?_, h1r, h2r, ?_⟩
      · simp [h2f]
      · simp [h2f, h1f]
    · rw [hm] at hInv
      simp at hInv

/-! ### Witnesses -/

/-- Witness for C1 at a concrete searchless filter set. -/
theorem filteredExpenses_page_bound_witness :
    searchActive wEmptyFilters = false
    ∧ (getFilteredExpenses (some "u") [] wJoinNone false false wEmptyFilters).data.length
        ≤ (getFilteredExpenses (some "u") [] wJoinNone false false wEmptyFilters).pageSize :=
  ⟨rfl, (filteredExpenses_page_bound "u" [] wJoinNone false false wEmptyFilters rfl).1⟩

/-- Witness for C2 at a concrete text-search filter set. -/
theorem search_applied_after_pagination_witness :
    searchActive wSearchFilters = true
    ∧ (getFilteredExpenses (some "u") [] wJoinNone false false wSearchFilters).data
      = ((((List.insertionSort dateGe (([] : List ExpenseRow).filter
            (matchesFilters "u" wSearchFilters))).drop
            ((orDefaultNat wSearchFilters.page 1 - 1)
              * orDefaultNat wSearchFilters.pageSize 20)).take
            (orDefaultNat wSearchFilters.pageSize 20)).map (enrich wJoinNone)).filter
          (fun t =>
            (match t.description with
             | some d => strContains (strLower d) (strLower (wSearchFilters.search.getD ""))
             | none => false)
            || strContains (strLower t.category_name)
                (strLower (wSearchFilters.search.getD ""))
            || (match t.notes with
                | some n => strContains (strLower n) (strLower (wSearchFilters.search.getD ""))
                | none => false)) :=
  ⟨by decide, search_applied_after_pagination "u" [] wJoinNone wSearchFilters (by decide)⟩

/-- Witness for C4 at a concrete one-row database. -/
theorem categoryTotals_groups_witness :
    wCT ∈ getCategoryTotalsForMonth (some "u") [wRow] wJoin false "2025-01"
    ∧ wCT.total
        = ((([wRow].filter (inMonthForUser "u" "2025-01")).filter
            (fun e => catKey e == wCT.category_id)).map ExpenseRow.amount).sum := by
  have hmem : wCT ∈ getCategoryTotalsForMonth (some "u") [wRow] wJoin false "2025-01" := by
    show wCT ∈ [wCT]
    exact List.mem_cons_self wCT []
  exact ⟨hmem, (categoryTotals_groups "u" "2025-01" [wRow] wJoin).2.2.1 wCT hmem⟩

/-- Witness for C6 at a concrete empty budget table. -/
theorem setBudget_twice_one_row_witness :
    (([] : List BudgetRow).filter (budgetKeyMatch "u" "2025-01")).length ≤ 1
    ∧ ((setBudget (some "u")
          (setBudget (some "u") ([] : List BudgetRow) false "2025-01" 100 "b1" "t1").1
          false "2025-01" 100 "b2" "t2").1.filter (budgetKeyMatch "u" "2025-01")).map
        BudgetRow.amount = [100] :=
  ⟨by decide,
    (setBudget_twice_one_row "u" "2025-01" 100 [] "b1" "b2" "t1" "t2" (by decide)).1⟩

/-- Witness for C9 at a concrete text-search filter set. -/
theorem search_totalCount_capped_witness :
    searchActive wSearchFilters = true
    ∧ (getFilteredExpenses (some "u") [] wJoinNone false false wSearchFilters).totalCount
        ≤ (getFilteredExpenses (some "u") [] wJoinNone false false wSearchFilters).pageSize :=
  ⟨by decide, (search_totalCount_capped "u" [] wJoinNone wSearchFilters (by decide)).2.1⟩

end ExpenseTracker
